import Mathlib

/-!
Verification of the Granola sync pipeline (`granola_sync.py`).

The Python source is shallowly embedded: pure functions become Lean
functions over `String` / `List Char`, optional ("maybe `None`") values
become `Option`, and the filesystem / transcript-fetch effects of
`sync_document` become explicit state passing over an association-list
filesystem together with a fetch counter.
-/

namespace Granola

/-- Python f-string interpolation of a value that is either a string or
`None`: `None` prints as the literal text `"None"`. -/
def pyStr : Option String → String
  | some s => s
  | none => "None"

/-- The ASCII whitespace characters recognised by Python's `str.split()`
(with no separator argument). -/
def isPySpace (c : Char) : Bool :=
  c == ' ' || c == '\t' || c == '\n' || c == '\r' || c == '\x0b' || c == '\x0c'

/-- Python `s.replace(p, repl)` for a one-character pattern `p`:
every occurrence of `p` is replaced by `repl`. -/
def replace1 (p : Char) (repl : List Char) : List Char → List Char
  | [] => []
  | c :: rest => (if c = p then repl else [c]) ++ replace1 p repl rest

/-- Python `s.replace(p1p2, repl)` for a two-character pattern:
non-overlapping occurrences are replaced left to right. -/
def replace2 (p1 p2 : Char) (repl : List Char) : List Char → List Char
  | [] => []
  | [c] => [c]
  | c1 :: c2 :: rest =>
    if c1 = p1 ∧ c2 = p2 then repl ++ replace2 p1 p2 repl rest
    else c1 :: replace2 p1 p2 repl (c2 :: rest)

/-- Worker for `pySplit`: `acc` holds the characters of the word currently
being read, in reverse. -/
def pySplitAux : List Char → List Char → List (List Char)
  | acc, [] => if acc = [] then [] else [acc.reverse]
  | acc, c :: rest =>
    if isPySpace c then
      if acc = [] then pySplitAux [] rest else acc.reverse :: pySplitAux [] rest
    else pySplitAux (c :: acc) rest

/-- Python `s.split()`: split on runs of whitespace, dropping empty pieces. -/
def pySplit (s : List Char) : List (List Char) :=
  pySplitAux [] s

/-- Python `" ".join(pieces)`. -/
def joinSpace : List (List Char) → List Char
  | [] => []
  | [w] => w
  | w :: ws => w ++ ' ' :: joinSpace ws

/-- `sanitize_filename` from `granola_sync.py`, on the character list of the
input string: replace `<>` by `and`, delete colons, slash to dash, each of
`" \ | ? *` to dash, then collapse whitespace via `" ".join(name.split())`. -/
def sanitize_filename (name : List Char) : List Char :=
  let n1 := replace2 '<' '>' ('a' :: 'n' :: 'd' :: []) name
  let n2 := replace1 ':' [] n1
  let n3 := replace1 '/' ['-'] n2
  let n4 := List.foldl (fun s c => replace1 c ['-'] s) n3 ['"', '\\', '|', '?', '*']
  joinSpace (pySplit n4)

/-- `sanitize_filename` as a `String → String` function. -/
def sanitizeStr (s : String) : String :=
  String.mk (sanitize_filename s.data)

/-- Python `s.replace(p, repl)` at `String` type, one-character pattern. -/
def pyReplaceChar (p : Char) (repl : String) (s : String) : String :=
  String.mk (replace1 p repl.data s.data)

/-- Python `s.strip()`: drop leading and trailing whitespace. -/
def pyStrip (s : String) : String :=
  String.mk (((s.data.dropWhile isPySpace).reverse.dropWhile isPySpace).reverse)

/-- An inline mark on a ProseMirror text node: `mark.get('type')` and
`mark.get('attrs', {}).get('href', ...)` are the only fields read. -/
structure Mark where
  mtype : Option String
  href : Option String
deriving DecidableEq, Repr

/-- A ProseMirror node as read by `parse_prosemirror`: either not a dict
(rendered as the empty string) or a dict with the fields the code reads,
each with the code's default: `type` default `""`, `content` default `[]`,
`text` default `""`, `attrs.level` default `1`, `marks` default `[]`. -/
inductive PMNode where
  | nonDict : PMNode
  | node (ntype : String) (content : List PMNode) (text : String)
      (level : Nat) (marks : List Mark) : PMNode
deriving Repr

/-- The mark loop of `parse_prosemirror`'s text case: bold/italic/code wrap
the running text; a link mark returns `[text](href)` immediately, so marks
after the first link mark are never applied. -/
def applyMarks : List Mark → String → String
  | [], text => text
  | m :: rest, text =>
    if m.mtype = some "bold" then applyMarks rest ("**" ++ text ++ "**")
    else if m.mtype = some "italic" then applyMarks rest ("*" ++ text ++ "*")
    else if m.mtype = some "code" then applyMarks rest ("`" ++ text ++ "`")
    else if m.mtype = some "link" then "[" ++ text ++ "](" ++ (m.href.getD "") ++ ")"
    else applyMarks rest text

mutual

/-- `parse_prosemirror` from `granola_sync.py`: recursive ProseMirror JSON
to markdown conversion. -/
def parse_prosemirror : PMNode → String
  | .nonDict => ""
  | .node ntype content text level marks =>
    let child_text := parseChildren content
    if ntype = "doc" then child_text
    else if ntype = "heading" then
      String.mk (List.replicate level '#') ++ " " ++ child_text ++ "\n\n"
    else if ntype = "paragraph" then child_text ++ "\n\n"
    else if ntype = "bulletList" then child_text ++ "\n"
    else if ntype = "orderedList" then child_text ++ "\n"
    else if ntype = "listItem" then "- " ++ pyStrip child_text ++ "\n"
    else if ntype = "text" then applyMarks marks text
    else if ntype = "horizontalRule" then "\n---\n\n"
    else child_text

/-- `''.join(parse_prosemirror(child) for child in content)`. -/
def parseChildren : List PMNode → String
  | [] => ""
  | c :: cs => parse_prosemirror c ++ parseChildren cs

end

/-- A transcript segment: `segment.get('source')` and `segment.get('text')`
are the only fields read. -/
structure Segment where
  source : Option String
  text : Option String
deriving DecidableEq, Repr

/-- `resolve_speaker_name` from `granola_sync.py`.  Attendee names come from
`extract_people` and may be Python `None`, hence `Option String`; the
branches that produce a concrete label return `some`.  `creator_name or
"Me"` maps the empty string to `"Me"`. -/
def resolve_speaker_name (segment : Segment) (creator_name : String)
    (attendee_names : List (Option String)) : Option String :=
  if segment.source = some "microphone" then
    some (if creator_name = "" then "Me" else creator_name)
  else if segment.source = some "system" then
    if attendee_names.length = 1 then attendee_names.headD none
    else if 1 < attendee_names.length then some "Remote Speaker"
    else some "Speaker"
  else some "Unknown"

/-- The per-segment line of `format_transcript`: segments whose `text` is
absent or empty are dropped (`if text := segment.get('text')`), otherwise
the line is `**<name>**: <text>`. -/
def segmentLine (creator_name : String) (attendee_names : List (Option String))
    (segment : Segment) : Option String :=
  match segment.text with
  | some t =>
    if t = "" then none
    else some ("**" ++ pyStr (resolve_speaker_name segment creator_name attendee_names)
      ++ "**: " ++ t)
  | none => none

/-- `format_transcript` from `granola_sync.py`.  The first argument is the
raw result of `fetch_transcript`, which may be Python `None`; `if not
transcript_data` treats `None` and `[]` alike. -/
def format_transcript (transcript_data : Option (List Segment)) (creator_name : String)
    (attendee_names : List (Option String)) : String :=
  match transcript_data with
  | none => ""
  | some segs =>
    if segs = [] then ""
    else if segs.filterMap (segmentLine creator_name attendee_names) = [] then ""
    else "\n\n---\n## Full Transcript\n\n"
      ++ String.intercalate "\n\n" (segs.filterMap (segmentLine creator_name attendee_names))

/-- The value of `details.person.name` inside an attendee record: Python may
hold a dict (with optional `fullName`), a plain string, or nothing. -/
inductive NameObj where
  | dict (fullName : Option String) : NameObj
  | str (s : String) : NameObj
deriving DecidableEq, Repr

/-- `details.person` record: only its `name` field is read. -/
structure PersonRec where
  name : Option NameObj
deriving DecidableEq, Repr

/-- Attendee `details` record: only its `person` field is read. -/
structure DetailsRec where
  person : Option PersonRec
deriving DecidableEq, Repr

/-- One entry of `people.attendees`: either a dict (with the fields the
code reads) or a non-dict entry, which `extract_people` skips. -/
inductive AttEntry where
  | record (email : Option String) (details : Option DetailsRec) : AttEntry
  | nonRec : AttEntry
deriving DecidableEq, Repr

/-- `people.creator` record: `name` and `email` are the fields read. -/
structure CreatorRec where
  name : Option String
  email : Option String
deriving DecidableEq, Repr

/-- The `people` object of a document. -/
structure PeopleRec where
  creator : Option CreatorRec
  attendees : Option (List AttEntry)
deriving DecidableEq, Repr

/-- Best-effort name out of `att.details.person.name` in `extract_people`:
a truthy `fullName` of a dict, or a truthy plain string; every falsy value
(`None`, `""`, empty dict, dict without truthy `fullName`) yields `none`,
in which case the caller keeps the email fallback. -/
def name_from_details (details : Option DetailsRec) : Option String :=
  let person := ((details.getD ⟨none⟩).person.getD ⟨none⟩)
  match person.name with
  | some (.dict f) =>
    match f with
    | some fn => if fn = "" then none else some fn
    | none => none
  | some (.str s) => if s = "" then none else some s
  | none => none

/-- One extracted participant: `{'name': ..., 'email': ...}` where the name
may be Python `None`. -/
structure PersonInfo where
  name : Option String
  email : Option String
deriving DecidableEq, Repr

/-- The result of `extract_people`: creator info plus attendee list. -/
structure PeopleInfo where
  creator_name : String
  creator_email : Option String
  attendees : List PersonInfo
deriving DecidableEq, Repr

/-- `extract_people` from `granola_sync.py`: creator name falls back to
`"Me"` when falsy; each attendee's name is `details.person.name` when
resolvable, else the attendee's email (possibly `None`); non-dict attendee
entries are skipped. -/
def extract_people (people : Option PeopleRec) : PeopleInfo :=
  let people_data := people.getD ⟨none, none⟩
  let creator := people_data.creator.getD ⟨none, none⟩
  let creator_name :=
    match creator.name with
    | some n => if n = "" then "Me" else n
    | none => "Me"
  let raw_attendees := people_data.attendees.getD []
  let attendees_info := raw_attendees.filterMap fun att =>
    match att with
    | .record email details =>
      some { name := (name_from_details details).elim email some, email := email }
    | .nonRec => none
  ⟨creator_name, creator.email, attendees_info⟩

/-- A date as produced by `datetime.fromisoformat`; only the fields used by
`sync_document` (`%Y-%m-%d` and `.year`) are kept. -/
structure PyDate where
  year : Nat
  month : Nat
  day : Nat
deriving DecidableEq, Repr

/-- Gregorian leap-year test, as used by Python's date validation. -/
def isLeap (y : Nat) : Bool :=
  (y % 4 == 0 && y % 100 != 0) || y % 400 == 0

/-- Number of days in a month. -/
def daysInMonth (y m : Nat) : Nat :=
  if m = 2 then (if isLeap y then 29 else 28)
  else if m = 4 ∨ m = 6 ∨ m = 9 ∨ m = 11 then 30
  else 31

/-- Two decimal digits as a number, if both characters are digits. -/
def twoDigits (a b : Char) : Option Nat :=
  if a.isDigit ∧ b.isDigit then some ((a.toNat - 48) * 10 + (b.toNat - 48))
  else none

/-- A `±HH:MM` UTC-offset suffix (or nothing). -/
def validOffset : List Char → Bool
  | [] => true
  | sgn :: rest =>
    (sgn == '+' || sgn == '-') &&
      match rest with
      | h1 :: h2 :: ':' :: m1 :: m2 :: [] =>
        match twoDigits h1 h2, twoDigits m1 m2 with
        | some hh, some mm => hh < 24 && mm < 60
        | _, _ => false
      | _ => false

/-- What may follow the seconds of an ISO time: nothing, a fractional
part (then an offset), or an offset. -/
def afterSeconds : List Char → Bool
  | [] => true
  | '.' :: rest =>
    let frac := rest.takeWhile Char.isDigit
    (frac.length == 3 || frac.length == 6) && validOffset (rest.dropWhile Char.isDigit)
  | rest => validOffset rest

/-- What may follow the minutes of an ISO time: nothing, `:SS...`, or an
offset. -/
def afterMinutes : List Char → Bool
  | ':' :: s1 :: s2 :: rest =>
    match twoDigits s1 s2 with
    | some ss => ss < 60 && afterSeconds rest
    | none => false
  | rest => validOffset rest

/-- An ISO time-of-day `HH:MM[:SS[.ffffff]][±HH:MM]`. -/
def validTime : List Char → Bool
  | h1 :: h2 :: ':' :: m1 :: m2 :: rest =>
    match twoDigits h1 h2, twoDigits m1 m2 with
    | some hh, some mm => hh < 24 && mm < 60 && afterMinutes rest
    | _, _ => false
  | _ => false

/-- `datetime.fromisoformat`: `YYYY-MM-DD`, optionally followed by a `'T'`
or `' '` separator and a time-of-day; returns the date fields on success. -/
def fromisoformat (s : String) : Option PyDate :=
  match s.data with
  | y1 :: y2 :: y3 :: y4 :: '-' :: m1 :: m2 :: '-' :: d1 :: d2 :: rest =>
    match twoDigits y1 y2, twoDigits y3 y4, twoDigits m1 m2, twoDigits d1 d2 with
    | some yh, some yl, some mo, some dy =>
      let yr := yh * 100 + yl
      let restOK :=
        match rest with
        | [] => true
        | sep :: tl => (sep == 'T' || sep == ' ') && validTime tl
      if 1 ≤ mo ∧ mo ≤ 12 ∧ 1 ≤ dy ∧ dy ≤ daysInMonth yr mo ∧ restOK = true
      then some ⟨yr, mo, dy⟩
      else none
    | _, _, _, _ => none
  | _ => none

/-- A natural number as two decimal digits, zero-padded. -/
def pad2 (n : Nat) : String :=
  if n < 10 then "0" ++ toString n else toString n

/-- A natural number as four decimal digits, zero-padded. -/
def pad4 (n : Nat) : String :=
  if n < 10 then "000" ++ toString n
  else if n < 100 then "00" ++ toString n
  else if n < 1000 then "0" ++ toString n
  else toString n

/-- `dt.strftime('%Y-%m-%d')`. -/
def strftimeDate (d : PyDate) : String :=
  pad4 d.year ++ "-" ++ pad2 d.month ++ "-" ++ pad2 d.day

/-- The date-prefix / year-folder derivation of `sync_document`: sentinels
`"0000-00-00"` / `"Unknown_Year"` unless `created_at_str` is non-empty and
`fromisoformat(created_at_str.replace('Z', '+00:00'))` succeeds. -/
def date_parts (created_at_str : String) : String × String :=
  if created_at_str = "" then ("0000-00-00", "Unknown_Year")
  else
    match fromisoformat (pyReplaceChar 'Z' "+00:00" created_at_str) with
    | some dt => (strftimeDate dt, toString dt.year)
    | none => ("0000-00-00", "Unknown_Year")

/-- The `email` line appended for a participant when their email is truthy
(`if att['email']:`). -/
def emailLine (email : Option String) : String :=
  match email with
  | some e => if e = "" then "" else "    email: \"" ++ e ++ "\"\n"
  | none => ""

/-- The attendee loop of the frontmatter assembly in `sync_document`: one
`- name:` line per attendee (the name interpolated verbatim, `None`
printing as `None`), plus an email line when truthy. -/
def attendee_lines : List PersonInfo → String
  | [] => ""
  | a :: rest =>
    "  - name: \"" ++ pyStr a.name ++ "\"\n" ++ emailLine a.email ++ attendee_lines rest

/-- The YAML frontmatter assembled by `sync_document`: only the title is
quote-escaped (`title.replace('"', '\\"')`); every other interpolation is
verbatim. -/
def build_frontmatter (doc_id title created_at_str : String) (people : PeopleInfo) : String :=
  let safe_title := pyReplaceChar '"' "\\\"" title
  "---\n"
    ++ "granola_id: " ++ doc_id ++ "\n"
    ++ "title: \"" ++ safe_title ++ "\"\n"
    ++ "created_at: " ++ created_at_str ++ "\n"
    ++ "participants:\n"
    ++ "  - name: \"" ++ people.creator_name ++ "\"\n"
    ++ emailLine people.creator_email
    ++ attendee_lines people.attendees
    ++ "---\n\n"

/-- The `last_viewed_panel` of a document: only its `content` field is
read; `none` stands for an absent or non-dict panel. -/
structure Panel where
  content : Option PMNode
deriving Repr

/-- A document record as consumed by `sync_document`: the fields the code
reads, each `Option` for "key absent" (or non-dict where noted). -/
structure Doc where
  id : Option String
  title : Option String
  created_at : Option String
  last_viewed_panel : Option Panel
  people : Option PeopleRec
deriving Repr

/-- The notes-markdown extraction of `sync_document`: the panel must be a
dict, its `content` a dict whose `type` is `"doc"`; anything else yields
empty notes. -/
def notes_of (panel : Option Panel) : String :=
  match panel with
  | some p =>
    match p.content with
    | some n =>
      match n with
      | .node ntype _ _ _ _ => if ntype = "doc" then parse_prosemirror n else ""
      | .nonDict => ""
    | none => ""
  | none => ""

/-- The target path `<yearFolder>/<datePrefix> <sanitizedTitle>.md`
computed by `sync_document`. -/
def target_path (doc : Doc) : String :=
  let title := doc.title.getD "Untitled"
  let dp := date_parts (doc.created_at.getD "")
  dp.2 ++ "/" ++ dp.1 ++ " " ++ sanitizeStr title ++ ".md"

/-- The output filesystem, a path-to-content association list. -/
abbrev FS := List (String × String)

/-- `filepath.exists()` over the modelled filesystem. -/
def fsExists (fs : FS) (p : String) : Bool :=
  fs.any (fun e => e.1 == p)

/-- Outcome of `sync_document`: its boolean return value, the filesystem
afterwards, and how many transcript fetches it performed. -/
structure SyncResult where
  success : Bool
  fs : FS
  fetches : Nat
deriving DecidableEq, Repr

/-- `sync_document` from `granola_sync.py`, with the transcript fetch as an
oracle `fetchT` and the filesystem passed explicitly (directory creation
always succeeds and writes always succeed in the model; `time.sleep` and
logging have no observable effect). -/
def sync_document (fetchT : String → Option (List Segment)) (doc : Doc) (fs : FS) :
    SyncResult :=
  match doc.id with
  | none => ⟨false, fs, 0⟩
  | some doc_id =>
    if doc_id = "" then ⟨false, fs, 0⟩
    else
      let filepath := target_path doc
      if fsExists fs filepath then ⟨true, fs, 0⟩
      else
        let markdown_notes := notes_of doc.last_viewed_panel
        let transcript_data := fetchT doc_id
        let people := extract_people doc.people
        let attendee_names := people.attendees.map (·.name)
        let transcript_text := format_transcript transcript_data people.creator_name attendee_names
        let frontmatter :=
          build_frontmatter doc_id (doc.title.getD "Untitled") (doc.created_at.getD "") people
        let full_content := frontmatter ++ markdown_notes ++ transcript_text
        ⟨true, (filepath, full_content) :: fs, 1⟩

/-- The batch loop of `main`: run `sync_document` over each document in
order, threading the filesystem and summing transcript fetches. -/
def run_documents (fetchT : String → Option (List Segment)) :
    List Doc → FS → FS × Nat
  | [], fs => (fs, 0)
  | d :: ds, fs =>
    let r := sync_document fetchT d fs
    let rest := run_documents fetchT ds r.fs
    (rest.1, r.fetches + rest.2)

/-! ### Character-membership lemmas for the sanitizer primitives -/

theorem mem_of_mem_replace1 {p : Char} {repl s : List Char} {c : Char}
    (h : c ∈ replace1 p repl s) : c ∈ repl ∨ (c ∈ s ∧ c ≠ p) := by
  induction s with
  | nil => simp [replace1] at h
  | cons a rest ih =>
    simp only [replace1] at h
    rcases List.mem_append.1 h with h1 | h2
    · by_cases hap : a = p
      · rw [if_pos hap] at h1
        exact Or.inl h1
      · rw [if_neg hap] at h1
        rcases List.mem_singleton.1 h1 with rfl
        exact Or.inr ⟨List.mem_cons_self _ _, hap⟩
    · rcases ih h2 with h3 | ⟨h4, h5⟩
      · exact Or.inl h3
      · exact Or.inr ⟨List.mem_cons_of_mem _ h4, h5⟩

theorem not_mem_replace1_self {p : Char} {repl s : List Char}
    (hp : p ∉ repl) : p ∉ replace1 p repl s := by
  intro h
  rcases mem_of_mem_replace1 h with h1 | ⟨_, h2⟩
  · exact hp h1
  · exact h2 rfl

theorem not_mem_replace1_of {p c : Char} {repl s : List Char}
    (hc : c ∉ repl) (hs : c ∉ s) : c ∉ replace1 p repl s := by
  intro h
  rcases mem_of_mem_replace1 h with h1 | ⟨h2, _⟩
  · exact hc h1
  · exact hs h2

theorem mem_of_mem_replace2 (p1 p2 : Char) (repl : List Char) :
    ∀ (s : List Char) (c : Char), c ∈ replace2 p1 p2 repl s → c ∈ repl ∨ c ∈ s
  | [], c, h => by simp [replace2] at h
  | [a], c, h => by simp only [replace2] at h; exact Or.inr h
  | a :: b :: rest, c, h => by
    simp only [replace2] at h
    by_cases hab : a = p1 ∧ b = p2
    · rw [if_pos hab] at h
      rcases List.mem_append.1 h with h1 | h2
      · exact Or.inl h1
      · rcases mem_of_mem_replace2 p1 p2 repl rest c h2 with h3 | h4
        · exact Or.inl h3
        · exact Or.inr (List.mem_cons_of_mem _ (List.mem_cons_of_mem _ h4))
    · rw [if_neg hab] at h
      rcases List.mem_cons.1 h with rfl | h2
      · exact Or.inr (List.mem_cons_self _ _)
      · rcases mem_of_mem_replace2 p1 p2 repl (b :: rest) c h2 with h3 | h4
        · exact Or.inl h3
        · exact Or.inr (List.mem_cons_of_mem _ h4)

theorem mem_of_mem_pySplitAux :
    ∀ (s acc w : List Char), w ∈ pySplitAux acc s →
      (∀ c ∈ acc, isPySpace c = false) →
      ∀ c ∈ w, (c ∈ acc ∨ c ∈ s) ∧ isPySpace c = false := by
  intro s
  induction s with
  | nil =>
    intro acc w hw hacc c hc
    simp only [pySplitAux] at hw
    by_cases h0 : acc = []
    · rw [if_pos h0] at hw
      simp at hw
    · rw [if_neg h0] at hw
      rcases List.mem_singleton.1 hw with rfl
      have := List.mem_reverse.1 hc
      exact ⟨Or.inl this, hacc c this⟩
  | cons a rest ih =>
    intro acc w hw hacc c hc
    simp only [pySplitAux] at hw
    by_cases hsp : isPySpace a
    · rw [if_pos hsp] at hw
      by_cases h0 : acc = []
      · rw [if_pos h0] at hw
        have := ih [] w hw (by simp) c hc
        rcases this with ⟨h1 | h2, h3⟩
        · simp at h1
        · exact ⟨Or.inr (List.mem_cons_of_mem _ h2), h3⟩
      · rw [if_neg h0] at hw
        rcases List.mem_cons.1 hw with rfl | h2
        · have := List.mem_reverse.1 hc
          exact ⟨Or.inl this, hacc c this⟩
        · have := ih [] w h2 (by simp) c hc
          rcases this with ⟨h1 | h2', h3⟩
          · simp at h1
          · exact ⟨Or.inr (List.mem_cons_of_mem _ h2'), h3⟩
    · rw [if_neg hsp] at hw
      have hacc' : ∀ x ∈ a :: acc, isPySpace x = false := by
        intro x hx
        rcases List.mem_cons.1 hx with rfl | hx2
        · exact Bool.eq_false_iff.2 hsp
        · exact hacc x hx2
      have := ih (a :: acc) w hw hacc' c hc
      rcases this with ⟨h1 | h2, h3⟩
      · rcases List.mem_cons.1 h1 with rfl | h1'
        · exact ⟨Or.inr (List.mem_cons_self _ _), h3⟩
        · exact ⟨Or.inl h1', h3⟩
      · exact ⟨Or.inr (List.mem_cons_of_mem _ h2), h3⟩

theorem mem_of_mem_joinSpace :
    ∀ (ws : List (List Char)) (c : Char), c ∈ joinSpace ws →
      c = ' ' ∨ ∃ w, w ∈ ws ∧ c ∈ w
  | [], c, h => by simp [joinSpace] at h
  | [w], c, h => by
    simp only [joinSpace] at h
    exact Or.inr ⟨w, List.mem_singleton.2 rfl, h⟩
  | w :: w2 :: ws, c, h => by
    simp only [joinSpace] at h
    rcases List.mem_append.1 h with h1 | h2
    · exact Or.inr ⟨w, List.mem_cons_self _ _, h1⟩
    · rcases List.mem_cons.1 h2 with rfl | h3
      · exact Or.inl rfl
      · rcases mem_of_mem_joinSpace (w2 :: ws) c h3 with h4 | ⟨w', hw', hc'⟩
        · exact Or.inl h4
        · exact Or.inr ⟨w', List.mem_cons_of_mem _ hw', hc'⟩

theorem mem_of_mem_collapse {s : List Char} {c : Char}
    (h : c ∈ joinSpace (pySplit s)) :
    c = ' ' ∨ (c ∈ s ∧ isPySpace c = false) := by
  rcases mem_of_mem_joinSpace _ c h with h1 | ⟨w, hw, hc⟩
  · exact Or.inl h1
  · have := mem_of_mem_pySplitAux s [] w hw (by simp) c hc
    rcases this with ⟨h2 | h3, h4⟩
    · simp at h2
    · exact Or.inr ⟨h3, h4⟩

/-! ### Spec-side pipeline for the sanitizer (refinement comparison) -/

/-- Spec step 1: replace literal `<>` with the word `and`. -/
def specAngleToAnd (s : List Char) : List Char :=
  replace2 '<' '>' ('a' :: 'n' :: 'd' :: []) s

/-- Spec step 2: remove colons entirely (no replacement character). -/
def specDropColons (s : List Char) : List Char :=
  replace1 ':' [] s

/-- Spec step 3: replace `/` with `-`. -/
def specSlashDash (s : List Char) : List Char :=
  replace1 '/' ['-'] s

/-- Spec step 4: replace each of the characters `" \ | ? *` with `-`. -/
def specInvalidDash (s : List Char) : List Char :=
  List.foldl (fun t c => replace1 c ['-'] t) s ['"', '\\', '|', '?', '*']

/-- Spec step 5: collapse all whitespace runs into single spaces and trim
leading/trailing whitespace. -/
def specCollapse (s : List Char) : List Char :=
  joinSpace (pySplit s)

/-- C5 (amended): every character of `sanitize_filename`'s output is
different from each of `: " \ | ? * /` and is neither a newline nor a tab
(lone `<` and `>` survive, so they are dropped from the claim), and the
empty string sanitizes to the empty string. -/
theorem C5_sanitize_filename_safe_chars (s : List Char) (c : Char)
    (h : c ∈ sanitize_filename s) :
    (c ≠ ':' ∧ c ≠ '"' ∧ c ≠ '\\' ∧ c ≠ '|' ∧ c ≠ '?' ∧ c ≠ '*' ∧ c ≠ '/' ∧
      c ≠ '\n' ∧ c ≠ '\t') ∧ sanitize_filename [] = [] := by
  refine ⟨?_, by decide⟩
  have h' : c ∈ joinSpace (pySplit (replace1 '*' ['-'] (replace1 '?' ['-']
      (replace1 '|' ['-'] (replace1 '\\' ['-'] (replace1 '"' ['-']
      (replace1 '/' ['-'] (replace1 ':' []
      (replace2 '<' '>' ('a' :: 'n' :: 'd' :: []) s))))))))) := h
  have hq : '"' ∉ replace1 '*' ['-'] (replace1 '?' ['-'] (replace1 '|' ['-']
      (replace1 '\\' ['-'] (replace1 '"' ['-'] (replace1 '/' ['-'] (replace1 ':' []
      (replace2 '<' '>' ('a' :: 'n' :: 'd' :: []) s))))))) :=
    not_mem_replace1_of (by decide) (not_mem_replace1_of (by decide)
      (not_mem_replace1_of (by decide) (not_mem_replace1_of (by decide)
      (not_mem_replace1_self (by decide)))))
  have hbs : '\\' ∉ replace1 '*' ['-'] (replace1 '?' ['-'] (replace1 '|' ['-']
      (replace1 '\\' ['-'] (replace1 '"' ['-'] (replace1 '/' ['-'] (replace1 ':' []
      (replace2 '<' '>' ('a' :: 'n' :: 'd' :: []) s))))))) :=
    not_mem_replace1_of (by decide) (not_mem_replace1_of (by decide)
      (not_mem_replace1_of (by decide) (not_mem_replace1_self (by decide))))
  have hbar : '|' ∉ replace1 '*' ['-'] (replace1 '?' ['-'] (replace1 '|' ['-']
      (replace1 '\\' ['-'] (replace1 '"' ['-'] (replace1 '/' ['-'] (replace1 ':' []
      (replace2 '<' '>' ('a' :: 'n' :: 'd' :: []) s))))))) :=
    not_mem_replace1_of (by decide) (not_mem_replace1_of (by decide)
      (not_mem_replace1_self (by decide)))
  have hqm : '?' ∉ replace1 '*' ['-'] (replace1 '?' ['-'] (replace1 '|' ['-']
      (replace1 '\\' ['-'] (replace1 '"' ['-'] (replace1 '/' ['-'] (replace1 ':' []
      (replace2 '<' '>' ('a' :: 'n' :: 'd' :: []) s))))))) :=
    not_mem_replace1_of (by decide) (not_mem_replace1_self (by decide))
  have hst : '*' ∉ replace1 '*' ['-'] (replace1 '?' ['-'] (replace1 '|' ['-']
      (replace1 '\\' ['-'] (replace1 '"' ['-'] (replace1 '/' ['-'] (replace1 ':' []
      (replace2 '<' '>' ('a' :: 'n' :: 'd' :: []) s))))))) :=
    not_mem_replace1_self (by decide)
  have hcol : ':' ∉ replace1 '*' ['-'] (replace1 '?' ['-'] (replace1 '|' ['-']
      (replace1 '\\' ['-'] (replace1 '"' ['-'] (replace1 '/' ['-'] (replace1 ':' []
      (replace2 '<' '>' ('a' :: 'n' :: 'd' :: []) s))))))) :=
    not_mem_replace1_of (by decide) (not_mem_replace1_of (by decide)
      (not_mem_replace1_of (by decide) (not_mem_replace1_of (by decide)
      (not_mem_replace1_of (by decide) (not_mem_replace1_of (by decide)
      (not_mem_replace1_self (by decide)))))))
  have hsl : '/' ∉ replace1 '*' ['-'] (replace1 '?' ['-'] (replace1 '|' ['-']
      (replace1 '\\' ['-'] (replace1 '"' ['-'] (replace1 '/' ['-'] (replace1 ':' []
      (replace2 '<' '>' ('a' :: 'n' :: 'd' :: []) s))))))) :=
    not_mem_replace1_of (by decide) (not_mem_replace1_of (by decide)
      (not_mem_replace1_of (by decide) (not_mem_replace1_of (by decide)
      (not_mem_replace1_of (by decide) (not_mem_replace1_self (by decide))))))
  rcases mem_of_mem_collapse h' with rfl | ⟨hm, hns⟩
  · exact ⟨by decide, by decide, by decide, by decide, by decide, by decide,
      by decide, by decide, by decide⟩
  · refine ⟨?_, ?_, ?_, ?_, ?_, ?_, ?_, ?_, ?_⟩
    · intro heq; exact hcol (heq ▸ hm)
    · intro heq; exact hq (heq ▸ hm)
    · intro heq; exact hbs (heq ▸ hm)
    · intro heq; exact hbar (heq ▸ hm)
    · intro heq; exact hqm (heq ▸ hm)
    · intro heq; exact hst (heq ▸ hm)
    · intro heq; exact hsl (heq ▸ hm)
    · intro heq; rw [heq] at hns; exact absurd hns (by decide)
    · intro heq; rw [heq] at hns; exact absurd hns (by decide)

/-- C5 counterexample: the claim says the output contains no `<`, but a
lone `<` (not part of the literal pair `<>`) passes through unchanged. -/
theorem C5_counterexample :
    sanitize_filename ('a' :: '<' :: 'b' :: []) = 'a' :: '<' :: 'b' :: [] ∧
      '<' ∈ sanitize_filename ('a' :: '<' :: 'b' :: []) := by
  decide

/-- C5 witness: the safe-character theorem applied at a concrete input. -/
theorem C5_witness :
    (('x' ≠ ':' ∧ 'x' ≠ '"' ∧ 'x' ≠ '\\' ∧ 'x' ≠ '|' ∧ 'x' ≠ '?' ∧ 'x' ≠ '*' ∧
      'x' ≠ '/' ∧ 'x' ≠ '\n' ∧ 'x' ≠ '\t') ∧ sanitize_filename [] = []) :=
  C5_sanitize_filename_safe_chars ('x' :: []) 'x' (by decide)

/-- C6: `sanitize_filename` is exactly the spec's five-step pipeline in the
spec's order, and on `"Q3:Plan/Review <> Ops"` it produces
`"Q3Plan-Review and Ops"`; whitespace runs (including tabs and newlines)
collapse to single spaces with outer whitespace trimmed. -/
theorem C6_sanitize_pipeline :
    (∀ s : List Char, sanitize_filename s =
      specCollapse (specInvalidDash (specSlashDash (specDropColons (specAngleToAnd s))))) ∧
    sanitizeStr "Q3:Plan/Review <> Ops" = "Q3Plan-Review and Ops" ∧
    sanitizeStr " A \t\nB  C " = "A B C" :=
  ⟨fun _ => rfl, by decide, by decide⟩

/-! ### Mark application on text nodes -/

theorem applyMarks_first_link (pre : List Mark) (href : Option String)
    (post : List Mark) (text : String)
    (h : ∀ m ∈ pre, m.mtype ≠ some "link") :
    applyMarks (pre ++ Mark.mk (some "link") href :: post) text =
      "[" ++ applyMarks pre text ++ "](" ++ href.getD "" ++ ")" := by
  revert h
  induction pre generalizing text with
  | nil =>
    intro h
    simp [applyMarks]
  | cons m rest ih =>
    intro h
    have hm : m.mtype ≠ some "link" := h m (List.mem_cons_self _ _)
    have hr : ∀ x ∈ rest, x.mtype ≠ some "link" :=
      fun x hx => h x (List.mem_cons_of_mem _ hx)
    by_cases hb : m.mtype = some "bold"
    · simp only [List.cons_append, applyMarks, if_pos hb]
      exact ih _ hr
    · by_cases hi : m.mtype = some "italic"
      · simp only [List.cons_append, applyMarks, if_neg hb, if_pos hi]
        exact ih _ hr
      · by_cases hc : m.mtype = some "code"
        · simp only [List.cons_append, applyMarks, if_neg hb, if_neg hi, if_pos hc]
          exact ih _ hr
        · simp only [List.cons_append, applyMarks, if_neg hb, if_neg hi, if_neg hc,
            if_neg hm]
          exact ih _ hr

/-- C1 (amended): when a link mark is present, the text node renders as
`[v](href)` where `href` is the first link mark's href (empty string when
absent), `v` is the node's value with the marks **before** that link mark
applied in order, and all marks after the first link mark are ignored; in
particular marks `[bold, link]` render as `[**text**](href)`, not as
`[text](href)`. -/
theorem C1_link_short_circuit_keeps_earlier_marks (content : List PMNode)
    (text : String) (level : Nat) (pre post : List Mark) (href : Option String)
    (h : ∀ m ∈ pre, m.mtype ≠ some "link") :
    parse_prosemirror (.node "text" content text level
        (pre ++ Mark.mk (some "link") href :: post)) =
      "[" ++ applyMarks pre text ++ "](" ++ href.getD "" ++ ")" ∧
    parse_prosemirror (.node "text" content text level
        (Mark.mk (some "bold") none :: Mark.mk (some "link") href :: post)) =
      "[**" ++ text ++ "**](" ++ href.getD "" ++ ")" := by
  constructor
  · have hb : parse_prosemirror (.node "text" content text level
        (pre ++ Mark.mk (some "link") href :: post)) =
        applyMarks (pre ++ Mark.mk (some "link") href :: post) text := rfl
    rw [hb, applyMarks_first_link pre href post text h]
  · have hb : parse_prosemirror (.node "text" content text level
        (Mark.mk (some "bold") none :: Mark.mk (some "link") href :: post)) =
        applyMarks (Mark.mk (some "bold") none :: Mark.mk (some "link") href :: post)
          text := rfl
    rw [hb]
    simp only [applyMarks, reduceIte, Option.some.injEq, reduceCtorEq, String.reduceEq,
      if_true, if_false, String.append_assoc]
    rw [← String.append_assoc "[" "**", show ("[" ++ "**" : String) = "[**" from rfl,
      ← String.append_assoc "**" "](", show ("**" ++ "](" : String) = "**](" from rfl]

/-- C1 counterexample: a text node with marks `[bold, link]` renders as
`[**text**](http://x)`, not as the claimed `[text](http://x)` with no
decoration on the value. -/
theorem C1_counterexample :
    parse_prosemirror (.node "text" [] "text" 1
        (Mark.mk (some "bold") none :: Mark.mk (some "link") (some "http://x") :: [])) =
      "[**text**](http://x)" ∧
    parse_prosemirror (.node "text" [] "text" 1
        (Mark.mk (some "bold") none :: Mark.mk (some "link") (some "http://x") :: [])) ≠
      "[text](http://x)" := by
  decide

/-- C1 witness: the amended link theorem applied at marks `[bold, link]`. -/
theorem C1_witness :
    parse_prosemirror (.node "text" [] "hi" 1
        ([Mark.mk (some "bold") none] ++ Mark.mk (some "link") (some "u") :: [])) =
      "[" ++ applyMarks [Mark.mk (some "bold") none] "hi" ++ "](" ++
        (some "u" : Option String).getD "" ++ ")" ∧
    parse_prosemirror (.node "text" [] "hi" 1
        (Mark.mk (some "bold") none :: Mark.mk (some "link") (some "u") :: [])) =
      "[**" ++ "hi" ++ "**](" ++ (some "u" : Option String).getD "" ++ ")" :=
  C1_link_short_circuit_keeps_earlier_marks [] "hi" 1 [Mark.mk (some "bold") none] []
    (some "u") (by decide)

/-! ### Speaker resolution -/

/-- C4: `resolve_speaker_name` is total over (segment, creatorName,
attendeeNames); `microphone` yields the creator's name (or `"Me"` when
empty), `system` yields the sole attendee name / `"Remote Speaker"` /
`"Speaker"` for one / several / zero attendee names, and any other or
absent source tag yields `"Unknown"`. -/
theorem C4_resolve_speaker_name_cases (seg : Segment) (creator : String)
    (ns : List (Option String)) (n : Option String) :
    (seg.source = some "microphone" →
      resolve_speaker_name seg creator ns =
        some (if creator = "" then "Me" else creator)) ∧
    (seg.source = some "system" → ns = [n] →
      resolve_speaker_name seg creator ns = n) ∧
    (seg.source = some "system" → 1 < ns.length →
      resolve_speaker_name seg creator ns = some "Remote Speaker") ∧
    (seg.source = some "system" → ns = [] →
      resolve_speaker_name seg creator ns = some "Speaker") ∧
    (∀ t, seg.source = some t → t ≠ "microphone" → t ≠ "system" →
      resolve_speaker_name seg creator ns = some "Unknown") ∧
    (seg.source = none →
      resolve_speaker_name seg creator ns = some "Unknown") := by
  obtain ⟨src, txt⟩ := seg
  refine ⟨?_, ?_, ?_, ?_, ?_, ?_⟩
  · rintro rfl
    rfl
  · rintro rfl rfl
    rfl
  · rintro rfl hlen
    match ns, hlen with
    | a :: b :: tl, h2 =>
      simp only [resolve_speaker_name, List.length_cons]
      rw [if_neg (by decide), if_pos (by decide), if_neg (by omega), if_pos (by omega)]
  · rintro rfl rfl
    rfl
  · rintro t rfl hm hs
    simp only [resolve_speaker_name]
    rw [if_neg (by simp [hm]), if_neg (by simp [hs])]
  · rintro rfl
    rfl

/-- C4 witness: the case analysis applied at concrete segments. -/
theorem C4_witness :
    resolve_speaker_name ⟨some "system", none⟩ "X" [some "A", some "B"] =
      some "Remote Speaker" ∧
    resolve_speaker_name ⟨some "microphone", none⟩ "" [] = some "Me" ∧
    resolve_speaker_name ⟨some "system", none⟩ "X" [some "A"] = some "A" ∧
    resolve_speaker_name ⟨some "system", none⟩ "X" [] = some "Speaker" ∧
    resolve_speaker_name ⟨some "zoom", none⟩ "X" [] = some "Unknown" :=
  ⟨(C4_resolve_speaker_name_cases ⟨some "system", none⟩ "X" [some "A", some "B"]
      none).2.2.1 rfl (by decide),
   (C4_resolve_speaker_name_cases ⟨some "microphone", none⟩ "" [] none).1 rfl,
   (C4_resolve_speaker_name_cases ⟨some "system", none⟩ "X" [some "A"]
      (some "A")).2.1 rfl rfl,
   (C4_resolve_speaker_name_cases ⟨some "system", none⟩ "X" [] none).2.2.2.1 rfl rfl,
   (C4_resolve_speaker_name_cases ⟨some "zoom", none⟩ "X" [] none).2.2.2.2.1 "zoom"
      rfl (by decide) (by decide)⟩

/-! ### Transcript formatting -/

theorem filterMap_segmentLine_eq (c : String) (ns : List (Option String)) :
    ∀ segs : List Segment,
      segs.filterMap (segmentLine c ns) =
        (segs.filter (fun s => s.text.getD "" != "")).map
          (fun s => "**" ++ pyStr (resolve_speaker_name s c ns) ++ "**: " ++ s.text.getD "") := by
  intro segs
  induction segs with
  | nil => rfl
  | cons s rest ih =>
    cases hs : s.text with
    | none =>
      simp only [List.filterMap_cons, List.filter_cons, segmentLine, hs]
      simp [ih]
    | some t =>
      by_cases ht : t = ""
      · subst ht
        simp only [List.filterMap_cons, List.filter_cons, segmentLine, hs]
        simp [ih]
      · simp only [List.filterMap_cons, List.filter_cons, segmentLine, hs]
        simp [ih, ht, hs]

theorem filterMap_segmentLine_eq_nil (c : String) (ns : List (Option String)) :
    ∀ segs : List Segment, (∀ s ∈ segs, s.text = none ∨ s.text = some "") →
      segs.filterMap (segmentLine c ns) = [] := by
  intro segs h
  induction segs with
  | nil => rfl
  | cons s rest ih =>
    have hrest := ih (fun x hx => h x (List.mem_cons_of_mem _ hx))
    rcases h s (List.mem_cons_self _ _) with hs | hs
    · simp [List.filterMap_cons, segmentLine, hs, hrest]
    · simp [List.filterMap_cons, segmentLine, hs, hrest]

theorem filterMap_segmentLine_ne_nil (c : String) (ns : List (Option String))
    (segs : List Segment) (h : ∃ s ∈ segs, ∃ t, s.text = some t ∧ t ≠ "") :
    segs.filterMap (segmentLine c ns) ≠ [] := by
  rcases h with ⟨s, hmem, t, hst, ht⟩
  have : ("**" ++ pyStr (resolve_speaker_name s c ns) ++ "**: " ++ t)
      ∈ segs.filterMap (segmentLine c ns) :=
    List.mem_filterMap.2 ⟨s, hmem, by simp [segmentLine, hst, ht]⟩
  exact List.ne_nil_of_mem this

/-- C7: `format_transcript` yields the empty string when the transcript is
absent, empty, or contains only text-less segments; otherwise it is the
`---` break plus `## Full Transcript` heading followed by one
`**<resolvedName>**: <text>` line per non-empty-text segment, in input
order, joined by blank lines. -/
theorem C7_format_transcript_shape (td : Option (List Segment)) (c : String)
    (ns : List (Option String)) :
    (td = none → format_transcript td c ns = "") ∧
    (td = some [] → format_transcript td c ns = "") ∧
    (∀ segs, td = some segs → (∀ s ∈ segs, s.text = none ∨ s.text = some "") →
      format_transcript td c ns = "") ∧
    (∀ segs, td = some segs → (∃ s ∈ segs, ∃ t, s.text = some t ∧ t ≠ "") →
      format_transcript td c ns =
        "\n\n---\n## Full Transcript\n\n" ++ String.intercalate "\n\n"
          ((segs.filter (fun s => s.text.getD "" != "")).map
            (fun s => "**" ++ pyStr (resolve_speaker_name s c ns) ++ "**: "
              ++ s.text.getD ""))) := by
  refine ⟨?_, ?_, ?_, ?_⟩
  · rintro rfl
    rfl
  · rintro rfl
    rfl
  · rintro segs rfl hall
    simp only [format_transcript]
    by_cases h0 : segs = []
    · rw [if_pos h0]
    · rw [if_neg h0, if_pos (filterMap_segmentLine_eq_nil c ns segs hall)]
  · rintro segs rfl hex
    have hne := filterMap_segmentLine_ne_nil c ns segs hex
    have h0 : segs ≠ [] := by
      rintro rfl
      rcases hex with ⟨s, hs, _⟩
      simp at hs
    simp only [format_transcript]
    rw [if_neg h0, if_neg hne, filterMap_segmentLine_eq c ns segs]

/-- C7 witness: the shape theorem applied at concrete transcripts. -/
theorem C7_witness :
    format_transcript (some [⟨some "microphone", some "Hi"⟩]) "Me" [] =
      "\n\n---\n## Full Transcript\n\n**Me**: Hi" ∧
    format_transcript (some [⟨some "system", none⟩, ⟨none, some ""⟩]) "Me" [] = "" :=
  ⟨(C7_format_transcript_shape (some [⟨some "microphone", some "Hi"⟩]) "Me" []).2.2.2
      [⟨some "microphone", some "Hi"⟩] rfl
      ⟨⟨some "microphone", some "Hi"⟩, by decide, "Hi", rfl, by decide⟩,
   (C7_format_transcript_shape (some [⟨some "system", none⟩, ⟨none, some ""⟩])
      "Me" []).2.2.1 [⟨some "system", none⟩, ⟨none, some ""⟩] rfl (by decide)⟩

/-! ### People extraction and speaker attribution of unnamed attendees -/

/-- C9: an attendee record with no resolvable name and no email yields the
absent name `none`; `resolve_speaker_name` on a `system` segment with that
single-attendee list returns the absent value, and `format_transcript`
attributes the line to the literal text `None`. -/
theorem C9_unnamed_attendee_attributed_None (det : Option DetailsRec)
    (cr : Option CreatorRec) (t : String)
    (h1 : name_from_details det = none) (h2 : t ≠ "") :
    (extract_people (some ⟨cr, some [AttEntry.record none det]⟩)).attendees.map
        (·.name) = [none] ∧
    resolve_speaker_name ⟨some "system", some t⟩
      (extract_people (some ⟨cr, some [AttEntry.record none det]⟩)).creator_name
      [none] = none ∧
    format_transcript (some [⟨some "system", some t⟩])
      (extract_people (some ⟨cr, some [AttEntry.record none det]⟩)).creator_name
      ((extract_people (some ⟨cr, some [AttEntry.record none det]⟩)).attendees.map
        (·.name)) =
      "\n\n---\n## Full Transcript\n\n**None**: " ++ t := by
  have hatt : (extract_people (some ⟨cr, some [AttEntry.record none det]⟩)).attendees
      = [⟨none, none⟩] := by
    simp [extract_people, h1]
  refine ⟨by rw [hatt]; rfl, by rfl, ?_⟩
  rw [hatt]
  have hfm : List.filterMap
      (segmentLine (extract_people (some ⟨cr, some [AttEntry.record none det]⟩)).creator_name
        (List.map (·.name) [(⟨none, none⟩ : PersonInfo)]))
      [⟨some "system", some t⟩] = [("**None**: " ++ t)] := by
    simp only [List.filterMap_cons, List.filterMap_nil, segmentLine, if_neg h2]
    rfl
  simp only [format_transcript]
  rw [if_neg (by simp), if_neg (by rw [hfm]; simp), hfm]
  rfl

/-- C9 witness: the unnamed-attendee theorem at a concrete record. -/
theorem C9_witness :
    (extract_people (some ⟨none, some [AttEntry.record none none]⟩)).attendees.map
        (·.name) = [none] ∧
    resolve_speaker_name ⟨some "system", some "Hi"⟩
      (extract_people (some ⟨none, some [AttEntry.record none none]⟩)).creator_name
      [none] = none ∧
    format_transcript (some [⟨some "system", some "Hi"⟩])
      (extract_people (some ⟨none, some [AttEntry.record none none]⟩)).creator_name
      ((extract_people (some ⟨none, some [AttEntry.record none none]⟩)).attendees.map
        (·.name)) =
      "\n\n---\n## Full Transcript\n\n**None**: " ++ "Hi" :=
  C9_unnamed_attendee_attributed_None none none "Hi" (by decide) (by decide)

/-! ### Frontmatter assembly -/

theorem attendee_lines_name_decomp (atts : List PersonInfo) (a : PersonInfo)
    (ha : a ∈ atts) :
    ∃ l r : String, attendee_lines atts =
      l ++ ("  - name: \"" ++ pyStr a.name ++ "\"\n") ++ r := by
  induction atts with
  | nil => simp at ha
  | cons b rest ih =>
    rcases List.mem_cons.1 ha with rfl | hmem
    · refine ⟨"", emailLine a.email ++ attendee_lines rest, ?_⟩
      simp only [attendee_lines, String.append_assoc]
      rfl
    · rcases ih hmem with ⟨l, r, hlr⟩
      refine ⟨"  - name: \"" ++ pyStr b.name ++ "\"\n" ++ emailLine b.email ++ l, r, ?_⟩
      simp only [attendee_lines, hlr, String.append_assoc]

theorem attendee_lines_email_decomp (atts : List PersonInfo) (a : PersonInfo)
    (e : String) (ha : a ∈ atts) (he : a.email = some e) (hne : e ≠ "") :
    ∃ l r : String, attendee_lines atts =
      l ++ ("    email: \"" ++ e ++ "\"\n") ++ r := by
  induction atts with
  | nil => simp at ha
  | cons b rest ih =>
    rcases List.mem_cons.1 ha with rfl | hmem
    · refine ⟨"  - name: \"" ++ pyStr a.name ++ "\"\n", attendee_lines rest, ?_⟩
      simp only [attendee_lines, emailLine, he, if_neg hne, String.append_assoc]
    · rcases ih hmem with ⟨l, r, hlr⟩
      refine ⟨"  - name: \"" ++ pyStr b.name ++ "\"\n" ++ emailLine b.email ++ l, r, ?_⟩
      simp only [attendee_lines, hlr, String.append_assoc]

/-- C10: in the assembled frontmatter only the title is backslash-escaped;
the creator's name, each attendee's name (with Python `None` printing as
`None`), and each truthy attendee email are interpolated verbatim into
their double-quoted fields, so embedded `"` characters in participant
fields reach the output unescaped. -/
theorem C10_frontmatter_title_escaped_participants_verbatim
    (did title created : String) (p : PeopleInfo) (a : PersonInfo) (e : String)
    (ha : a ∈ p.attendees) :
    (∃ l r : String, build_frontmatter did title created p =
      l ++ ("title: \"" ++ pyReplaceChar '"' "\\\"" title ++ "\"\n") ++ r) ∧
    (∃ l r : String, build_frontmatter did title created p =
      l ++ ("  - name: \"" ++ p.creator_name ++ "\"\n") ++ r) ∧
    (∃ l r : String, build_frontmatter did title created p =
      l ++ ("  - name: \"" ++ pyStr a.name ++ "\"\n") ++ r) ∧
    (a.email = some e → e ≠ "" →
      ∃ l r : String, build_frontmatter did title created p =
        l ++ ("    email: \"" ++ e ++ "\"\n") ++ r) := by
  refine ⟨?_, ?_, ?_, ?_⟩
  · refine ⟨"---\n" ++ "granola_id: " ++ did ++ "\n",
      "created_at: " ++ created ++ "\n" ++ "participants:\n"
        ++ "  - name: \"" ++ p.creator_name ++ "\"\n" ++ emailLine p.creator_email
        ++ attendee_lines p.attendees ++ "---\n\n", ?_⟩
    simp only [build_frontmatter, String.append_assoc]
  · refine ⟨"---\n" ++ "granola_id: " ++ did ++ "\n" ++ "title: \""
        ++ pyReplaceChar '"' "\\\"" title ++ "\"\n" ++ "created_at: " ++ created ++ "\n"
        ++ "participants:\n",
      emailLine p.creator_email ++ attendee_lines p.attendees ++ "---\n\n", ?_⟩
    simp only [build_frontmatter, String.append_assoc]
  · rcases attendee_lines_name_decomp p.attendees a ha with ⟨l, r, hlr⟩
    refine ⟨"---\n" ++ "granola_id: " ++ did ++ "\n" ++ "title: \""
        ++ pyReplaceChar '"' "\\\"" title ++ "\"\n" ++ "created_at: " ++ created ++ "\n"
        ++ "participants:\n" ++ "  - name: \"" ++ p.creator_name ++ "\"\n"
        ++ emailLine p.creator_email ++ l,
      r ++ "---\n\n", ?_⟩
    simp only [build_frontmatter, hlr, String.append_assoc]
  · intro he hne
    rcases attendee_lines_email_decomp p.attendees a e ha he hne with ⟨l, r, hlr⟩
    refine ⟨"---\n" ++ "granola_id: " ++ did ++ "\n" ++ "title: \""
        ++ pyReplaceChar '"' "\\\"" title ++ "\"\n" ++ "created_at: " ++ created ++ "\n"
        ++ "participants:\n" ++ "  - name: \"" ++ p.creator_name ++ "\"\n"
        ++ emailLine p.creator_email ++ l,
      r ++ "---\n\n", ?_⟩
    simp only [build_frontmatter, hlr, String.append_assoc]

/-- C10 witness: the verbatim-interpolation theorem at a participant whose
name and email both contain a double quote. -/
theorem C10_witness :
    (∃ l r : String,
      build_frontmatter "d9" "say \"hi\"" "2025-01-01"
        ⟨"Me", none, [⟨some "Bo\"b", some "a\"b@x"⟩]⟩ =
      l ++ ("title: \"" ++ pyReplaceChar '"' "\\\"" "say \"hi\"" ++ "\"\n") ++ r) ∧
    (∃ l r : String,
      build_frontmatter "d9" "say \"hi\"" "2025-01-01"
        ⟨"Me", none, [⟨some "Bo\"b", some "a\"b@x"⟩]⟩ =
      l ++ ("  - name: \"" ++ "Me" ++ "\"\n") ++ r) ∧
    (∃ l r : String,
      build_frontmatter "d9" "say \"hi\"" "2025-01-01"
        ⟨"Me", none, [⟨some "Bo\"b", some "a\"b@x"⟩]⟩ =
      l ++ ("  - name: \"" ++ pyStr (some "Bo\"b") ++ "\"\n") ++ r) ∧
    ((⟨some "Bo\"b", some "a\"b@x"⟩ : PersonInfo).email = some "a\"b@x" → "a\"b@x" ≠ "" →
      ∃ l r : String,
        build_frontmatter "d9" "say \"hi\"" "2025-01-01"
          ⟨"Me", none, [⟨some "Bo\"b", some "a\"b@x"⟩]⟩ =
        l ++ ("    email: \"" ++ "a\"b@x" ++ "\"\n") ++ r) :=
  C10_frontmatter_title_escaped_participants_verbatim "d9" "say \"hi\"" "2025-01-01"
    ⟨"Me", none, [⟨some "Bo\"b", some "a\"b@x"⟩]⟩ ⟨some "Bo\"b", some "a\"b@x"⟩
    "a\"b@x" (by decide)

/-! ### The per-document sync state machine -/

/-- Whether `sync_document` gets past its `if not doc_id` guard: the id key
is present and non-empty. -/
def hasId (doc : Doc) : Bool :=
  match doc.id with
  | some i => !(i == "")
  | none => false

theorem sync_document_no_id (f : String → Option (List Segment)) (doc : Doc)
    (fs : FS) (h : hasId doc = false) : sync_document f doc fs = ⟨false, fs, 0⟩ := by
  cases hid : doc.id with
  | none => simp [sync_document, hid]
  | some i =>
    have hi : i = "" := by
      simpa [hasId, hid] using h
    subst hi
    simp [sync_document, hid]

theorem sync_document_skip (f : String → Option (List Segment)) (doc : Doc)
    (fs : FS) (h1 : hasId doc = true)
    (h2 : fsExists fs (target_path doc) = true) :
    sync_document f doc fs = ⟨true, fs, 0⟩ := by
  cases hid : doc.id with
  | none => simp [hasId, hid] at h1
  | some i =>
    have hne : ¬ i = "" := by
      simpa [hasId, hid] using h1
    simp [sync_document, hid, hne, h2]

theorem sync_document_success (f : String → Option (List Segment)) (doc : Doc)
    (fs : FS) (h1 : hasId doc = true) : (sync_document f doc fs).success = true := by
  cases hid : doc.id with
  | none => simp [hasId, hid] at h1
  | some i =>
    have hne : ¬ i = "" := by
      simpa [hasId, hid] using h1
    by_cases hex : fsExists fs (target_path doc) = true
    · simp [sync_document, hid, hne, hex]
    · simp [sync_document, hid, hne, hex]

theorem sync_document_establishes (f : String → Option (List Segment)) (doc : Doc)
    (fs : FS) (h1 : hasId doc = true) :
    fsExists (sync_document f doc fs).fs (target_path doc) = true := by
  cases hid : doc.id with
  | none => simp [hasId, hid] at h1
  | some i =>
    have hne : ¬ i = "" := by
      simpa [hasId, hid] using h1
    by_cases hex : fsExists fs (target_path doc) = true
    · simp only [sync_document, hid, if_neg hne, if_pos hex]
      exact hex
    · simp only [sync_document, hid, if_neg hne, if_neg hex]
      simp only [fsExists, List.any_cons, Bool.or_eq_true]
      exact Or.inl (by simp)

theorem sync_document_mono (f : String → Option (List Segment)) (doc : Doc)
    (fs : FS) (p : String) (h : fsExists fs p = true) :
    fsExists (sync_document f doc fs).fs p = true := by
  cases hid : doc.id with
  | none => simpa [sync_document, hid] using h
  | some i =>
    by_cases hi : i = ""
    · simpa [sync_document, hid, hi] using h
    · by_cases hex : fsExists fs (target_path doc) = true
      · simpa [sync_document, hid, hi, hex] using h
      · simp only [sync_document, hid, if_neg hi, if_neg hex]
        simp only [fsExists] at h ⊢
        simp only [List.any_cons, Bool.or_eq_true]
        exact Or.inr h

theorem run_documents_mono (f : String → Option (List Segment)) :
    ∀ (docs : List Doc) (fs : FS) (p : String), fsExists fs p = true →
      fsExists (run_documents f docs fs).1 p = true
  | [], _, _, h => h
  | d :: ds, fs, p, h =>
    run_documents_mono f ds (sync_document f d fs).fs p (sync_document_mono f d fs p h)

theorem run_documents_establishes (f : String → Option (List Segment)) :
    ∀ (docs : List Doc) (fs : FS) (d : Doc), d ∈ docs → hasId d = true →
      fsExists (run_documents f docs fs).1 (target_path d) = true := by
  intro docs
  induction docs with
  | nil =>
    intro fs d hd
    simp at hd
  | cons x ds ih =>
    intro fs d hd hid
    rcases List.mem_cons.1 hd with rfl | hmem
    · exact run_documents_mono f ds _ _ (sync_document_establishes f d fs hid)
    · exact ih _ d hmem hid

theorem run_documents_stable (f : String → Option (List Segment)) :
    ∀ (docs : List Doc) (fs : FS),
      (∀ d ∈ docs, hasId d = true → fsExists fs (target_path d) = true) →
      run_documents f docs fs = (fs, 0) := by
  intro docs
  induction docs with
  | nil =>
    intro fs _
    rfl
  | cons x ds ih =>
    intro fs h
    have hrest := ih fs (fun d hd => h d (List.mem_cons_of_mem _ hd))
    cases hid : hasId x with
    | false =>
      have hx := sync_document_no_id f x fs hid
      simp [run_documents, hx, hrest]
    | true =>
      have hx := sync_document_skip f x fs hid (h x (List.mem_cons_self _ _) hid)
      simp [run_documents, hx, hrest]

/-- C2: a document whose target path already holds a file is skipped:
`sync_document` returns success, leaves the filesystem untouched, and
performs no transcript fetch; consequently a second run over the same
document list performs zero fetches and changes no file. -/
theorem C2_skip_existing_and_second_run_noop (f : String → Option (List Segment))
    (doc : Doc) (fs : FS) (docs : List Doc) (fs0 : FS)
    (h1 : hasId doc = true) (h2 : fsExists fs (target_path doc) = true) :
    sync_document f doc fs = ⟨true, fs, 0⟩ ∧
    run_documents f docs (run_documents f docs fs0).1 =
      ((run_documents f docs fs0).1, 0) := by
  refine ⟨sync_document_skip f doc fs h1 h2, ?_⟩
  exact run_documents_stable f docs _
    (fun d hd hid => run_documents_establishes f docs fs0 d hd hid)

/-- C2 witness: the skip/idempotence theorem at a concrete document set. -/
theorem C2_witness :
    sync_document (fun _ => none)
      ⟨some "i", some "T", none, none, none⟩
      [("Unknown_Year/0000-00-00 T.md", "x")] =
      ⟨true, [("Unknown_Year/0000-00-00 T.md", "x")], 0⟩ ∧
    run_documents (fun _ => none) [⟨some "i", some "T", none, none, none⟩]
      (run_documents (fun _ => none) [⟨some "i", some "T", none, none, none⟩] []).1 =
      ((run_documents (fun _ => none) [⟨some "i", some "T", none, none, none⟩] []).1, 0) :=
  C2_skip_existing_and_second_run_noop (fun _ => none)
    ⟨some "i", some "T", none, none, none⟩
    [("Unknown_Year/0000-00-00 T.md", "x")]
    [⟨some "i", some "T", none, none, none⟩] []
    (by decide) (by decide)

/-- C3: the end-to-end example — document `d1`, title `Team Sync`, created
`2025-03-04T10:00:00Z`, empty panel, creator `Me`, zero attendees,
transcript `[{source: microphone, text: Hi}]` — writes
`2025/2025-03-04 Team Sync.md` whose content carries the frontmatter line
`granola_id: d1` and ends with a transcript section whose sole speaker
line is `**Me**: Hi`. -/
theorem C3_end_to_end_example :
    sync_document
      (fun i => if i = "d1" then some [⟨some "microphone", some "Hi"⟩] else none)
      ⟨some "d1", some "Team Sync", some "2025-03-04T10:00:00Z", none,
        some ⟨some ⟨some "Me", none⟩, some []⟩⟩ [] =
      ⟨true, [("2025/2025-03-04 Team Sync.md",
        "---\ngranola_id: d1\ntitle: \"Team Sync\"\ncreated_at: 2025-03-04T10:00:00Z\nparticipants:\n  - name: \"Me\"\n---\n\n\n\n---\n## Full Transcript\n\n**Me**: Hi")], 1⟩ ∧
    (∃ x y : String,
      ("---\ngranola_id: d1\ntitle: \"Team Sync\"\ncreated_at: 2025-03-04T10:00:00Z\nparticipants:\n  - name: \"Me\"\n---\n\n\n\n---\n## Full Transcript\n\n**Me**: Hi" : String) =
        x ++ "granola_id: d1\n" ++ y) ∧
    (∃ x : String,
      ("---\ngranola_id: d1\ntitle: \"Team Sync\"\ncreated_at: 2025-03-04T10:00:00Z\nparticipants:\n  - name: \"Me\"\n---\n\n\n\n---\n## Full Transcript\n\n**Me**: Hi" : String) =
        x ++ "\n\n---\n## Full Transcript\n\n**Me**: Hi") := by
  refine ⟨by decide, ⟨"---\n",
    "title: \"Team Sync\"\ncreated_at: 2025-03-04T10:00:00Z\nparticipants:\n  - name: \"Me\"\n---\n\n\n\n---\n## Full Transcript\n\n**Me**: Hi",
    by decide⟩, ⟨"---\ngranola_id: d1\ntitle: \"Team Sync\"\ncreated_at: 2025-03-04T10:00:00Z\nparticipants:\n  - name: \"Me\"\n---\n\n",
    by decide⟩⟩

/-- C8: a document whose creation timestamp is absent, empty, or does not
parse lands under `Unknown_Year/0000-00-00 <sanitized title>.md`, and
`sync_document` still succeeds (and materialises that path) whenever the
document has an id. -/
theorem C8_timestamp_fallback_bucket (doc : Doc)
    (f : String → Option (List Segment)) (fs : FS)
    (hdate : doc.created_at = none ∨ ∃ s, doc.created_at = some s ∧
      (s = "" ∨ fromisoformat (pyReplaceChar 'Z' "+00:00" s) = none)) :
    target_path doc =
      "Unknown_Year/0000-00-00 " ++ sanitizeStr (doc.title.getD "Untitled") ++ ".md" ∧
    (hasId doc = true → (sync_document f doc fs).success = true ∧
      fsExists (sync_document f doc fs).fs (target_path doc) = true) := by
  have hdp : date_parts (doc.created_at.getD "") = ("0000-00-00", "Unknown_Year") := by
    rcases hdate with hnone | ⟨s, hs, hcase⟩
    · rw [hnone]
      rfl
    · rw [hs]
      rcases hcase with rfl | hparse
      · rfl
      · by_cases hse : s = ""
        · subst hse
          rfl
        · simp only [Option.getD_some, date_parts, if_neg hse, hparse]
  refine ⟨?_, fun hid =>
    ⟨sync_document_success f doc fs hid, sync_document_establishes f doc fs hid⟩⟩
  simp only [target_path, hdp]
  rfl

/-- C8 witness: the fallback-bucket theorem at a concrete document with an
unparsable timestamp. -/
theorem C8_witness :
    target_path ⟨some "i", some "T", some "garbage", none, none⟩ =
      "Unknown_Year/0000-00-00 " ++
        sanitizeStr ((⟨some "i", some "T", some "garbage", none, none⟩ : Doc).title.getD
          "Untitled") ++ ".md" ∧
    (hasId ⟨some "i", some "T", some "garbage", none, none⟩ = true →
      (sync_document (fun _ => none) ⟨some "i", some "T", some "garbage", none, none⟩
        []).success = true ∧
      fsExists (sync_document (fun _ => none)
        ⟨some "i", some "T", some "garbage", none, none⟩ []).fs
        (target_path ⟨some "i", some "T", some "garbage", none, none⟩) = true) :=
  C8_timestamp_fallback_bucket ⟨some "i", some "T", some "garbage", none, none⟩
    (fun _ => none) []
    (Or.inr ⟨"garbage", rfl, Or.inr (by decide)⟩)

end Granola
